import Mathlib

/-!
Shallow embedding of the core of `mc_mujoco`:
  * `src/LookUpTable/LookUpTable.h` — generic look-up table with linear
    interpolation (instantiated in the repository at `T = double`);
  * `src/mj_friction.h` / `src/mj_friction.cpp` — chattering-free joint
    friction model built on top of the look-up table.

`double` arithmetic is idealized as exact rational arithmetic (`ℚ`).
The external `cmath` functions (`exp`, `log`) and the Lambert-W evaluator
`utl::LambertW<0>` are opaque pure functions passed as parameters, exactly
as the design treats them (external collaborators specified by interface).
C++ exceptions become explicit error values.
-/

namespace utl

/-- `LookUpTable::OutOfBounds` — behavior outside the domain boundaries. -/
inductive OutOfBounds
  | Fail
  | BoundValue
  | Zero
deriving DecidableEq, Repr

/-- `utl::LookUpTable<double>` state: the stored `(x_i, y_i)` pairs together
with the `min_`, `max_`, `step_` and `outbounds_` members.  In the C++
default constructor `min_`, `max_`, `step_` are indeterminate; the embedding
fixes them to `0` (no claim depends on them while the table is empty, since
`operator()` checks emptiness first). -/
structure LookUpTable where
  table : List (ℚ × ℚ)
  min : ℚ
  max : ℚ
  step : ℚ
  outbounds : OutOfBounds
deriving DecidableEq, Repr

/-- The default-constructed table: empty, with out-of-bounds policy `Zero`
(`outbounds_ = Zero;` in the default constructor). -/
def LookUpTable.init : LookUpTable :=
  { table := [], min := 0, max := 0, step := 0, outbounds := .Zero }

/-- The `i`-th sample abscissa `min_ + static_cast<T>(i) * step_`. -/
def sampleX (mn st : ℚ) (i : ℕ) : ℚ := mn + (i : ℚ) * st

/-- `size_t tableSize = floor((max_ - min_) / step_) + 1;`
The C++ expression computes `floor(...) + 1` in `double` and converts the
result to `size_t`; for a negative value that conversion is undefined
behavior, which the embedding renders as truncation at zero (`Int.toNat`).
All claims about the negative region account for this. -/
def tableSize (mn mx st : ℚ) : ℕ := (⌊(mx - mn) / st⌋ + 1).toNat

/-- The table contents produced by a successful `create`: the loop
`for(i = 0; i < table_.size(); ++i) { table_[i] = (x_i, f(x_i)) }`. -/
def sampleList (mn st : ℚ) (f : ℚ → ℚ) (n : ℕ) : List (ℚ × ℚ) :=
  (List.range n).map (fun i => (sampleX mn st i, f (sampleX mn st i)))

/-- `LookUpTable::create(min, max, step, f)`.  Returns the C++ `bool`
result paired with the post-state (C++ mutates `*this`). -/
def LookUpTable.create (t : LookUpTable) (mn mx st : ℚ) (f : ℚ → ℚ) :
    Bool × LookUpTable :=
  if mn > mx ∨ st = 0 then (false, t)
  else
    (true,
     { table := sampleList mn st f (tableSize mn mx st),
       min := mn, max := mx, step := st, outbounds := t.outbounds })

/-- `LookUpTable::empty()`. -/
def LookUpTable.empty (t : LookUpTable) : Bool := t.table.isEmpty

/-- Result of `LookUpTable::operator()` — either a value, or one of the two
`std::out_of_range` throws. -/
inductive EvalResult
  | ok (v : ℚ)
  | errUninitialized
  | errOutOfBound
deriving DecidableEq, Repr

/-- `LookUpTable::operator()(x)`.  Faithful transcription of the query:
emptiness check, out-of-bounds policy dispatch, then interval location
`i = std::min(size_t(floor((x - min_) / step_)), maxIndex)` followed by
linear interpolation on the stored pairs (or the final sample when
`i == maxIndex`).  Vector accesses are rendered with `List.getD`; every
access is in bounds.  For a nonempty table reachable through `create`, the
`floor` argument in this branch is nonnegative, so `Int.toNat` agrees with
the C++ `size_t` cast. -/
def LookUpTable.eval (t : LookUpTable) (x : ℚ) : EvalResult :=
  if t.table = [] then .errUninitialized
  else
    let maxIndex : ℕ := t.table.length - 1
    if x < t.min ∨ x > t.max then
      match t.outbounds with
      | .Zero => .ok 0
      | .BoundValue =>
          if x < t.min then .ok (t.table.getD 0 (0, 0)).2
          else .ok (t.table.getD maxIndex (0, 0)).2
      | .Fail => .errOutOfBound
    else
      let i : ℕ := Min.min (⌊(x - t.min) / t.step⌋).toNat maxIndex
      if i < maxIndex then
        let p := t.table.getD i (0, 0)
        let q := t.table.getD (i + 1) (0, 0)
        .ok (p.2 + (q.2 - p.2) * (x - p.1) / (q.1 - p.1))
      else .ok (t.table.getD maxIndex (0, 0)).2

/-- The value-constructing C++ constructor
`LookUpTable(min, max, step, f, outbounds = Zero)` as used by the friction
model (`std::make_shared<utl::LookUpTable<double>>(min, max, LUTstep, dry)`,
which takes the default policy `Zero`): set `outbounds_` then run `create`,
discarding the boolean. -/
def LookUpTable.ofParams (mn mx st : ℚ) (f : ℚ → ℚ) : LookUpTable :=
  (LookUpTable.init.create mn mx st f).2

end utl

namespace mc_mujoco

/-- `mc_mujoco::JointValSet` (mj_friction.h), fields in declaration order.
`dryFricTable` is a `std::shared_ptr`; `Option` models the null/non-null
distinction.  Fields that carry default member initializers in the header
receive those values in `JointValSet.mkDefault` below. -/
structure JointValSet where
  value : ℚ
  velocity : ℚ
  torqueForce : ℚ
  Ts : ℚ
  Tc : ℚ
  Tsc : ℚ
  Tv : ℚ
  wbrk : ℚ
  Kf : ℚ
  Bf : ℚ
  e : ℚ
  p_prev : ℚ
  lambArg_th : ℚ
  dt : ℚ
  Z : ℚ
  den : ℚ
  w_ast : ℚ
  T_ast : ℚ
  min : ℚ
  max : ℚ
  LUTstep : ℚ
  firstTime : ℚ
  dry : ℚ
  dryFricTable : Option utl.LookUpTable
deriving DecidableEq

/-- A `JointValSet` built with the header's default member initializers
(`Ts = 2.5`, `Tc = 0.2`, `Tsc = Ts - Tc`, `Tv = 4.5`, `wbrk = 0.04`,
`Kf = 5000`, `Bf = 50`, `lambArg_th = -0.001`, `dt = 0.001`,
`Z = 1/(Kf*dt + Bf)`, `den = 1 + Z*Tv`, `min = Z*Ts`,
`max = Z*Tc - wbrk*den*log(-wbrk/Z * den/Tsc * lambArg_th)`,
`LUTstep = 0.001`, null `dryFricTable`).  `rlog` is the opaque `cmath`
`log`; the fields with no initializer in the header (indeterminate in C++)
are explicit parameters. -/
def JointValSet.mkDefault (rlog : ℚ → ℚ)
    (value velocity torqueForce e p_prev w_ast T_ast firstTime : ℚ) :
    JointValSet :=
  let Ts : ℚ := 2.5
  let Tc : ℚ := 0.2
  let Tsc : ℚ := Ts - Tc
  let Tv : ℚ := 4.5
  let wbrk : ℚ := 0.04
  let Kf : ℚ := 5000
  let Bf : ℚ := 50
  let lambArg_th : ℚ := -0.001
  let dt : ℚ := 0.001
  let Z : ℚ := 1 / (Kf * dt + Bf)
  let den : ℚ := 1 + Z * Tv
  { value := value, velocity := velocity, torqueForce := torqueForce,
    Ts := Ts, Tc := Tc, Tsc := Tsc, Tv := Tv, wbrk := wbrk, Kf := Kf,
    Bf := Bf, e := e, p_prev := p_prev, lambArg_th := lambArg_th, dt := dt,
    Z := Z, den := den, w_ast := w_ast, T_ast := T_ast,
    min := Z * Ts,
    max := Z * Tc - wbrk * den * rlog (-wbrk / Z * den / Tsc * lambArg_th),
    LUTstep := 0.001, firstTime := firstTime, dry := 0,
    dryFricTable := none }

/-- Failure modes of a friction step: dereferencing a null
`shared_ptr<LookUpTable>` (undefined behavior in C++), and the two
`std::out_of_range` throws of `LookUpTable::operator()`. -/
inductive FricError
  | nullTable
  | uninitializedTable
  | outOfBoundAccess
deriving DecidableEq, Repr

/-- `(*set.dryFricTable.get())(x)` — dereference the shared pointer and
query the table. -/
def queryTable (tbl : Option utl.LookUpTable) (x : ℚ) : Except FricError ℚ :=
  match tbl with
  | none => .error .nullTable
  | some t =>
      match t.eval x with
      | .ok v => .ok v
      | .errUninitialized => .error .uninitializedTable
      | .errOutOfBound => .error .outOfBoundAccess

/-- `mc_mujoco::setFrictionForces(JointValSet & set)` (mj_friction.cpp).
Returns the C++ `double` return value (the updated `torqueForce`) together
with the post-state.  C++ truthiness of the `double firstTime` flag is the
test `≠ 0`; `set.firstTime = !set.firstTime` under that test stores `0.0`. -/
def setFrictionForces (set : JointValSet) : Except FricError (ℚ × JointValSet) :=
  let w : ℚ := if set.firstTime ≠ 0 then 0 else (set.value - set.p_prev) / set.dt
  let firstTime' : ℚ := if set.firstTime ≠ 0 then 0 else set.firstTime
  let w_ast : ℚ := w + set.Z * set.Kf * set.e
  let T_ast : ℚ := w_ast / set.Z
  let TfE : Except FricError ℚ :=
    if T_ast > set.Ts then
      (queryTable set.dryFricTable w_ast).map
        (fun v => v + (set.Tc + set.Tv * w_ast) / set.den)
    else if T_ast < -set.Ts then
      (queryTable set.dryFricTable (-w_ast)).map
        (fun v => -v + (-set.Tc + set.Tv * w_ast) / set.den)
    else .ok T_ast
  TfE.map (fun Tf =>
    (set.torqueForce - Tf,
     { set with
       firstTime := firstTime', w_ast := w_ast, T_ast := T_ast,
       e := set.Z * (set.Bf * set.e + Tf * set.dt),
       p_prev := set.value,
       torqueForce := set.torqueForce - Tf }))

/-- `mc_mujoco::createTable(JointValSet & set)` (mj_friction.cpp): build the
dry-friction look-up table over `[set.min, set.max]` with step `set.LUTstep`
from `dry(w) = -(wbrk/Z) * LambertW<0>(-Z/wbrk * Tsc/den *
exp((Z*Tc - w)/(wbrk*den)))`.  `W0` and `rexp` are the opaque external
Lambert-W and `exp` functions. -/
def createTable (W0 rexp : ℚ → ℚ) (set : JointValSet) : JointValSet :=
  let Tsc := set.Tsc
  let Tc := set.Tc
  let Z := set.Z
  let den := set.den
  let wbrk := set.wbrk
  let dry : ℚ → ℚ := fun w_ast =>
    let lambArg := -Z / wbrk * Tsc / den * rexp ((Z * Tc - w_ast) / (wbrk * den));
    -(wbrk / Z) * W0 lambArg
  { set with dryFricTable := some (utl.LookUpTable.ofParams set.min set.max set.LUTstep dry) }

/-- Concrete joint state in the stick regime (`firstTime` set, zero error
state, no table built), used to exercise the friction step on explicit
inputs. -/
def stickSet : JointValSet :=
  { value := 0, velocity := 0, torqueForce := 0, Ts := 5/2, Tc := 1/5,
    Tsc := 23/10, Tv := 9/2, wbrk := 1/25, Kf := 5000, Bf := 50, e := 0,
    p_prev := 0, lambArg_th := -(1/1000), dt := 1/1000, Z := 1/55,
    den := 119/110, w_ast := 0, T_ast := 0, min := 1/22, max := 1,
    LUTstep := 1/1000, firstTime := 1, dry := 0, dryFricTable := none }

/-- Concrete joint state in the positive-slip regime with a built table,
used to exercise the friction step on explicit inputs.  Here
`w = (0-0)/1 = 0`, `w_ast = 0 + 1*1*4 = 4`, `T_ast = 4 > Ts = 2`. -/
def slipSet : JointValSet :=
  { value := 0, velocity := 0, torqueForce := 0, Ts := 2, Tc := 1,
    Tsc := 1, Tv := 1, wbrk := 1, Kf := 1, Bf := 1, e := 4,
    p_prev := 0, lambArg_th := -(1/1000), dt := 1, Z := 1, den := 1,
    w_ast := 0, T_ast := 0, min := 0, max := 10, LUTstep := 5,
    firstTime := 0, dry := 0,
    dryFricTable := some (utl.LookUpTable.ofParams 0 10 5 (fun x => x)) }

end mc_mujoco

namespace utl

/-! ### Ground facts about `create` and the sample grid -/

theorem create_of_valid (t0 : LookUpTable) {mn mx st : ℚ} (f : ℚ → ℚ)
    (hmn : mn ≤ mx) (hst : st ≠ 0) :
    t0.create mn mx st f =
      (true,
       { table := sampleList mn st f (tableSize mn mx st),
         min := mn, max := mx, step := st, outbounds := t0.outbounds }) := by
  rw [LookUpTable.create, if_neg]
  push_neg
  exact ⟨hmn, hst⟩

theorem create_of_invalid (t0 : LookUpTable) {mn mx st : ℚ} (f : ℚ → ℚ)
    (h : mx < mn ∨ st = 0) :
    t0.create mn mx st f = (false, t0) := by
  rw [LookUpTable.create, if_pos h]

theorem length_sampleList (mn st : ℚ) (f : ℚ → ℚ) (n : ℕ) :
    (sampleList mn st f n).length = n := by
  simp [sampleList]

theorem getD_sampleList (mn st : ℚ) (f : ℚ → ℚ) {n i : ℕ} (h : i < n)
    (d : ℚ × ℚ) :
    (sampleList mn st f n).getD i d = (sampleX mn st i, f (sampleX mn st i)) := by
  simp [sampleList, List.getD_eq_getElem?_getD, List.getElem?_map,
        List.getElem?_range h]

theorem sampleList_ne_nil (mn st : ℚ) (f : ℚ → ℚ) {n : ℕ} (h : 0 < n) :
    sampleList mn st f n ≠ [] := by
  have := length_sampleList mn st f n
  intro hnil
  rw [hnil] at this
  simp at this
  omega

theorem floor_ratio_nonneg {mn mx st : ℚ} (hmn : mn ≤ mx) (hst : 0 < st) :
    0 ≤ ⌊(mx - mn) / st⌋ :=
  Int.floor_nonneg.mpr (div_nonneg (by linarith) hst.le)

theorem tableSize_eq {mn mx st : ℚ} (hmn : mn ≤ mx) (hst : 0 < st) :
    tableSize mn mx st = (⌊(mx - mn) / st⌋).toNat + 1 := by
  have h := floor_ratio_nonneg hmn hst
  rw [tableSize]
  omega

theorem mn_le_sampleX {mn st : ℚ} (hst : 0 < st) (i : ℕ) :
    mn ≤ sampleX mn st i :=
  le_add_of_nonneg_right (mul_nonneg (Nat.cast_nonneg i) hst.le)

theorem sampleX_mono {mn st : ℚ} (hst : 0 < st) {i k : ℕ} (h : i ≤ k) :
    sampleX mn st i ≤ sampleX mn st k := by
  have : (i : ℚ) ≤ (k : ℚ) := by exact_mod_cast h
  have := mul_le_mul_of_nonneg_right this hst.le
  rw [sampleX, sampleX]
  linarith

theorem sampleX_strict_mono {mn st : ℚ} (hst : 0 < st) {i k : ℕ} (h : i < k) :
    sampleX mn st i < sampleX mn st k := by
  have : (i : ℚ) < (k : ℚ) := by exact_mod_cast h
  have := mul_lt_mul_of_pos_right this hst
  rw [sampleX, sampleX]
  linarith

theorem sampleX_last_le {mn mx st : ℚ} (hmn : mn ≤ mx) (hst : 0 < st) :
    sampleX mn st (⌊(mx - mn) / st⌋).toNat ≤ mx := by
  have h0 := floor_ratio_nonneg hmn hst
  have h1 : ((⌊(mx - mn) / st⌋).toNat : ℚ) ≤ (mx - mn) / st := by
    rw [show ((⌊(mx - mn) / st⌋).toNat : ℚ) = ((⌊(mx - mn) / st⌋ : ℤ) : ℚ) by
          exact_mod_cast congrArg (fun z : ℤ => (z : ℚ)) (Int.toNat_of_nonneg h0)]
    exact Int.floor_le _
  rw [sampleX]
  have := (le_div_iff₀ hst).1 h1
  linarith

/-! ### Ground facts about the bucket index `(⌊(x - mn)/st⌋).toNat` -/

theorem bucket_cast {mn st x : ℚ} (hst : 0 < st) (hx : mn ≤ x) :
    (((⌊(x - mn) / st⌋).toNat : ℤ)) = ⌊(x - mn) / st⌋ :=
  Int.toNat_of_nonneg (Int.floor_nonneg.mpr (div_nonneg (by linarith) hst.le))

theorem bucket_cast_q {mn st x : ℚ} (hst : 0 < st) (hx : mn ≤ x) :
    (((⌊(x - mn) / st⌋).toNat : ℚ)) = ((⌊(x - mn) / st⌋ : ℤ) : ℚ) := by
  exact_mod_cast congrArg (fun z : ℤ => (z : ℚ)) (bucket_cast hst hx)

theorem sampleX_bucket_le {mn st x : ℚ} (hst : 0 < st) (hx : mn ≤ x) :
    sampleX mn st (⌊(x - mn) / st⌋).toNat ≤ x := by
  have h1 : ((⌊(x - mn) / st⌋ : ℤ) : ℚ) ≤ (x - mn) / st := Int.floor_le _
  rw [sampleX, bucket_cast_q hst hx]
  have := (le_div_iff₀ hst).1 h1
  linarith

theorem lt_sampleX_bucket_succ {mn st x : ℚ} (hst : 0 < st) (hx : mn ≤ x) :
    x < sampleX mn st ((⌊(x - mn) / st⌋).toNat + 1) := by
  have h1 : (x - mn) / st < (⌊(x - mn) / st⌋ : ℤ) + 1 := Int.lt_floor_add_one _
  rw [sampleX]
  push_cast [bucket_cast_q hst hx]
  have := (div_lt_iff₀ hst).1 h1
  push_cast at this
  linarith

theorem le_bucket_iff {mn st x : ℚ} (hst : 0 < st) (hx : mn ≤ x) (M : ℕ) :
    M ≤ (⌊(x - mn) / st⌋).toNat ↔ sampleX mn st M ≤ x := by
  constructor
  · intro h
    calc sampleX mn st M ≤ sampleX mn st (⌊(x - mn) / st⌋).toNat :=
          sampleX_mono hst h
      _ ≤ x := sampleX_bucket_le hst hx
  · intro h
    have h1 : (M : ℚ) ≤ (x - mn) / st := by
      rw [le_div_iff₀ hst]
      rw [sampleX] at h
      linarith
    have h2 : (M : ℤ) ≤ ⌊(x - mn) / st⌋ := Int.le_floor.2 (by exact_mod_cast h1)
    omega

theorem bucket_mono {mn st : ℚ} (hst : 0 < st) {x1 x2 : ℚ} (h : x1 ≤ x2) :
    (⌊(x1 - mn) / st⌋).toNat ≤ (⌊(x2 - mn) / st⌋).toNat :=
  Int.toNat_le_toNat
    (Int.floor_mono (div_le_div_of_nonneg_right (by linarith) hst.le))

theorem bucket_sampleX {mn st : ℚ} (hst : 0 < st) (i : ℕ) :
    (⌊(sampleX mn st i - mn) / st⌋).toNat = i := by
  have : (sampleX mn st i - mn) / st = (i : ℚ) := by
    rw [sampleX]
    field_simp
  rw [this, Int.floor_natCast]
  simp

/-! ### Characterization of `operator()` on a table built by a valid `create` -/

theorem eval_empty (t : LookUpTable) (x : ℚ) (h : t.table = []) :
    t.eval x = .errUninitialized := by
  rw [LookUpTable.eval, if_pos h]

theorem eval_create_last (t0 : LookUpTable) {mn mx st : ℚ} (f : ℚ → ℚ)
    (hmn : mn ≤ mx) (hst : 0 < st) {x : ℚ} (hx1 : mn ≤ x) (hx2 : x ≤ mx)
    (hlast : sampleX mn st (tableSize mn mx st - 1) ≤ x) :
    ((t0.create mn mx st f).2).eval x =
      .ok (f (sampleX mn st (tableSize mn mx st - 1))) := by
  have hsz : tableSize mn mx st = (⌊(mx - mn) / st⌋).toNat + 1 :=
    tableSize_eq hmn hst
  rw [create_of_valid t0 f hmn hst.ne']
  rw [hsz] at hlast ⊢
  rw [Nat.add_sub_cancel] at hlast ⊢
  set M : ℕ := (⌊(mx - mn) / st⌋).toNat with hM
  have hne : sampleList mn st f (M + 1) ≠ [] :=
    sampleList_ne_nil _ _ _ (Nat.succ_pos M)
  have hin : ¬(x < mn ∨ x > mx) := by
    push_neg
    exact ⟨hx1, hx2⟩
  have hMb : M ≤ (⌊(x - mn) / st⌋).toNat := (le_bucket_iff hst hx1 M).2 hlast
  simp only [LookUpTable.eval, length_sampleList, Nat.add_sub_cancel,
             ← hM, if_neg hne, if_neg hin, min_eq_right hMb,
             lt_irrefl M, if_neg (lt_irrefl M)]
  rw [getD_sampleList mn st f (Nat.lt_succ_self M)]
  simp

theorem eval_create_interp (t0 : LookUpTable) {mn mx st : ℚ} (f : ℚ → ℚ)
    (hmn : mn ≤ mx) (hst : 0 < st) {x : ℚ} (hx1 : mn ≤ x) (hx2 : x ≤ mx)
    (hlt : x < sampleX mn st (tableSize mn mx st - 1)) :
    ((t0.create mn mx st f).2).eval x =
      .ok (f (sampleX mn st (⌊(x - mn) / st⌋).toNat) +
           (f (sampleX mn st ((⌊(x - mn) / st⌋).toNat + 1)) -
              f (sampleX mn st (⌊(x - mn) / st⌋).toNat)) *
             (x - sampleX mn st (⌊(x - mn) / st⌋).toNat) /
             (sampleX mn st ((⌊(x - mn) / st⌋).toNat + 1) -
              sampleX mn st (⌊(x - mn) / st⌋).toNat)) := by
  have hsz : tableSize mn mx st = (⌊(mx - mn) / st⌋).toNat + 1 :=
    tableSize_eq hmn hst
  rw [create_of_valid t0 f hmn hst.ne']
  rw [hsz] at hlt ⊢
  rw [Nat.add_sub_cancel] at hlt
  set M : ℕ := (⌊(mx - mn) / st⌋).toNat with hM
  set b : ℕ := (⌊(x - mn) / st⌋).toNat with hb
  have hne : sampleList mn st f (M + 1) ≠ [] :=
    sampleList_ne_nil _ _ _ (Nat.succ_pos M)
  have hin : ¬(x < mn ∨ x > mx) := by
    push_neg
    exact ⟨hx1, hx2⟩
  have hbM : b < M := by
    by_contra hcon
    push_neg at hcon
    exact absurd ((le_bucket_iff hst hx1 M).1 hcon) (not_le.2 hlt)
  simp only [LookUpTable.eval, length_sampleList, Nat.add_sub_cancel,
             ← hM, ← hb, if_neg hne, if_neg hin, min_eq_left hbM.le,
             if_pos hbM]
  rw [getD_sampleList mn st f (by omega : b < M + 1),
      getD_sampleList mn st f (by omega : b + 1 < M + 1)]

theorem eval_create_out (t0 : LookUpTable) {mn mx st : ℚ} (f : ℚ → ℚ)
    (hmn : mn ≤ mx) (hst : 0 < st) {x : ℚ} (hout : x < mn ∨ mx < x) :
    ((t0.create mn mx st f).2).eval x =
      (match t0.outbounds with
       | .Zero => .ok 0
       | .BoundValue =>
           if x < mn then .ok (f (sampleX mn st 0))
           else .ok (f (sampleX mn st (tableSize mn mx st - 1)))
       | .Fail => .errOutOfBound) := by
  have hsz : tableSize mn mx st = (⌊(mx - mn) / st⌋).toNat + 1 :=
    tableSize_eq hmn hst
  rw [create_of_valid t0 f hmn hst.ne']
  rw [hsz]
  rw [Nat.add_sub_cancel]
  set M : ℕ := (⌊(mx - mn) / st⌋).toNat with hM
  have hne : sampleList mn st f (M + 1) ≠ [] :=
    sampleList_ne_nil _ _ _ (Nat.succ_pos M)
  simp only [LookUpTable.eval, length_sampleList, Nat.add_sub_cancel,
             ← hM, if_neg hne, if_pos hout]
  cases t0.outbounds with
  | Zero => rfl
  | BoundValue =>
      by_cases hxmn : x < mn
      · simp only [if_pos hxmn]
        rw [getD_sampleList mn st f (Nat.succ_pos M)]
      · simp only [if_neg hxmn]
        rw [getD_sampleList mn st f (Nat.lt_succ_self M)]
  | Fail => rfl

theorem create_outbounds (t0 : LookUpTable) (mn mx st : ℚ) (f : ℚ → ℚ) :
    ((t0.create mn mx st f).2).outbounds = t0.outbounds := by
  rw [LookUpTable.create]
  split
  · rfl
  · rfl

/-! ### Grid and interpolation arithmetic -/

theorem sampleX_gap (mn st : ℚ) (i : ℕ) :
    sampleX mn st (i + 1) - sampleX mn st i = st := by
  rw [sampleX, sampleX]
  push_cast
  ring

theorem eval_create_last_M (t0 : LookUpTable) {mn mx st : ℚ} (f : ℚ → ℚ)
    (hmn : mn ≤ mx) (hst : 0 < st) {x : ℚ} (hx1 : mn ≤ x) (hx2 : x ≤ mx)
    (hlast : sampleX mn st (⌊(mx - mn) / st⌋).toNat ≤ x) :
    ((t0.create mn mx st f).2).eval x =
      .ok (f (sampleX mn st (⌊(mx - mn) / st⌋).toNat)) := by
  have h := eval_create_last t0 f hmn hst hx1 hx2
  rw [tableSize_eq hmn hst, Nat.add_sub_cancel] at h
  exact h hlast

theorem eval_create_interp_M (t0 : LookUpTable) {mn mx st : ℚ} (f : ℚ → ℚ)
    (hmn : mn ≤ mx) (hst : 0 < st) {x : ℚ} (hx1 : mn ≤ x) (hx2 : x ≤ mx)
    (hlt : x < sampleX mn st (⌊(mx - mn) / st⌋).toNat) :
    ((t0.create mn mx st f).2).eval x =
      .ok (f (sampleX mn st (⌊(x - mn) / st⌋).toNat) +
           (f (sampleX mn st ((⌊(x - mn) / st⌋).toNat + 1)) -
              f (sampleX mn st (⌊(x - mn) / st⌋).toNat)) *
             (x - sampleX mn st (⌊(x - mn) / st⌋).toNat) / st) := by
  have h := eval_create_interp t0 f hmn hst hx1 hx2
  rw [tableSize_eq hmn hst, Nat.add_sub_cancel] at h
  rw [h hlt, sampleX_gap]

theorem interp_between {a b v lo st : ℚ} (hst : 0 < st) (hab : a ≤ b)
    (hv1 : lo ≤ v) (hv2 : v < lo + st) :
    a ≤ a + (b - a) * (v - lo) / st ∧ a + (b - a) * (v - lo) / st ≤ b := by
  have hd0 : 0 ≤ (v - lo) / st := div_nonneg (by linarith) hst.le
  have hd1 : (v - lo) / st ≤ 1 := (div_le_one hst).2 (by linarith)
  constructor
  · have := mul_nonneg (sub_nonneg.2 hab) hd0
    rw [mul_div_assoc]
    linarith
  · have := mul_le_of_le_one_right (sub_nonneg.2 hab) hd1
    rw [mul_div_assoc]
    linarith

theorem interp_mono_same {a b v1 v2 lo st : ℚ} (hst : 0 < st) (hab : a ≤ b)
    (h12 : v1 ≤ v2) :
    a + (b - a) * (v1 - lo) / st ≤ a + (b - a) * (v2 - lo) / st := by
  have h1 : (b - a) * (v1 - lo) ≤ (b - a) * (v2 - lo) :=
    mul_le_mul_of_nonneg_left (by linarith) (by linarith)
  have h2 := div_le_div_of_nonneg_right h1 hst.le
  linarith

theorem sample_val_mono {mn mx st : ℚ} (hmn : mn ≤ mx) (hst : 0 < st)
    {f : ℚ → ℚ} (hf : ∀ a b, mn ≤ a → a ≤ b → b ≤ mx → f a ≤ f b)
    {i k : ℕ} (hik : i ≤ k) (hk : k ≤ (⌊(mx - mn) / st⌋).toNat) :
    f (sampleX mn st i) ≤ f (sampleX mn st k) :=
  hf _ _ (mn_le_sampleX hst i) (sampleX_mono hst hik)
    (le_trans (sampleX_mono hst hk) (sampleX_last_le hmn hst))

end utl

namespace mc_mujoco

theorem exceptMap_ok_inv {ε α β : Type} {g : α → β} {e : Except ε α} {b : β}
    (h : e.map g = .ok b) : ∃ a, e = .ok a ∧ g a = b := by
  cases e with
  | error err => simp [Except.map] at h
  | ok a =>
      refine ⟨a, rfl, ?_⟩
      simpa [Except.map] using h

theorem createTable_preserves (W0 rexp : ℚ → ℚ) (s : JointValSet) :
    (createTable W0 rexp s).e = s.e ∧ (createTable W0 rexp s).p_prev = s.p_prev := by
  constructor
  · rfl
  · rfl

end mc_mujoco

open utl mc_mujoco

/-- Claim C1: for every table built by a successful `create` over a valid
domain (`min ≤ max`, `step > 0`) and every query `min ≤ x ≤ max`: if `x`
lies at or beyond the last sample `x_{N-1}`, `operator()` returns the final
sample value `y_{N-1}` without extrapolating; otherwise, with interval index
`i = ⌊(x - min)/step⌋`, it returns
`y_i + (y_{i+1} - y_i)·(x - x_i)/(x_{i+1} - x_i)`, the denominator being the
actual stored x-gap `x_{i+1} - x_i`. -/
theorem claim_C1 (t0 : LookUpTable) (mn mx st : ℚ) (f : ℚ → ℚ) (x : ℚ)
    (hmn : mn ≤ mx) (hst : 0 < st) (hx1 : mn ≤ x) (hx2 : x ≤ mx) :
    (sampleX mn st (tableSize mn mx st - 1) ≤ x →
       ((t0.create mn mx st f).2).eval x =
         .ok (f (sampleX mn st (tableSize mn mx st - 1)))) ∧
    (x < sampleX mn st (tableSize mn mx st - 1) →
       ∀ i : ℕ, (i : ℤ) = ⌊(x - mn) / st⌋ →
         ((t0.create mn mx st f).2).eval x =
           .ok (f (sampleX mn st i) +
                (f (sampleX mn st (i + 1)) - f (sampleX mn st i)) *
                  (x - sampleX mn st i) /
                  (sampleX mn st (i + 1) - sampleX mn st i))) := by
  constructor
  · exact eval_create_last t0 f hmn hst hx1 hx2
  · intro hlt i hi
    have hib : i = (⌊(x - mn) / st⌋).toNat := by omega
    rw [hib]
    exact eval_create_interp t0 f hmn hst hx1 hx2 hlt

/-- Witness for C1: the table for `f(y) = y²` over `[0,1]` with step `1/2`
evaluates at `x = 3/4` (inside bucket `i = 1`) to
`1/4 + (1 - 1/4)·(3/4 - 1/2)/(1 - 1/2) = 5/8`. -/
theorem claim_C1_witness :
    ((LookUpTable.init.create 0 1 (1/2) (fun y => y * y)).2).eval (3/4) =
      .ok (5/8) := by
  have hfl : ⌊((1:ℚ) - 0) / (1/2)⌋ = 2 := by
    rw [Int.floor_eq_iff]
    norm_num
  have hsz : tableSize 0 1 (1/2) = 3 := by
    rw [tableSize, hfl]
    rfl
  have hb : ((1 : ℕ) : ℤ) = ⌊((3/4 : ℚ) - 0) / (1/2)⌋ := by
    rw [show ⌊((3/4 : ℚ) - 0) / (1/2)⌋ = 1 by rw [Int.floor_eq_iff]; norm_num]
    norm_num
  have h := (claim_C1 LookUpTable.init 0 1 (1/2) (fun y => y * y) (3/4)
      (by norm_num) (by norm_num) (by norm_num) (by norm_num)).2
  rw [hsz] at h
  have h2 := h (by norm_num [sampleX]) 1 hb
  rw [h2]
  norm_num [sampleX]

/-- Claim C4: calling `operator()` on a table on which no `create` has
succeeded raises the uninitialized-table error for every `x` and every
out-of-bounds policy: any empty table evaluates to the error, the
default-constructed table is empty, and a failed `create` leaves the table
untouched. -/
theorem claim_C4 :
    (∀ (t : LookUpTable) (x : ℚ), t.table = [] → t.eval x = .errUninitialized) ∧
    LookUpTable.init.table = [] ∧
    (∀ (t : LookUpTable) (mn mx st : ℚ) (f : ℚ → ℚ),
       mx < mn ∨ st = 0 → t.create mn mx st f = (false, t)) := by
  refine ⟨fun t x h => eval_empty t x h, rfl, fun t mn mx st f h => ?_⟩
  exact create_of_invalid t f h

/-- Witness for C4: the default-constructed table errors on query `7`, and
`create 5 1 (1/10)` fails leaving it unchanged. -/
theorem claim_C4_witness :
    LookUpTable.init.eval 7 = .errUninitialized ∧
    LookUpTable.init.create 5 1 (1/10) (fun y => y) = (false, LookUpTable.init) :=
  ⟨claim_C4.1 LookUpTable.init 7 rfl,
   claim_C4.2.2 LookUpTable.init 5 1 (1/10) (fun y => y) (Or.inl (by norm_num))⟩

/-- Claim C5: after a successful `create` with `min < max`, `step > 0`,
evaluation is exact at every knot: `evaluate(min) = f(min)` and
`evaluate(x_i) = f(x_i)` for every sample index `i`. -/
theorem claim_C5 (t0 : LookUpTable) (mn mx st : ℚ) (f : ℚ → ℚ)
    (hmn : mn < mx) (hst : 0 < st) :
    ((t0.create mn mx st f).2).eval mn = .ok (f mn) ∧
    ∀ i : ℕ, i < tableSize mn mx st →
      ((t0.create mn mx st f).2).eval (sampleX mn st i) =
        .ok (f (sampleX mn st i)) := by
  have hmn' : mn ≤ mx := hmn.le
  have key : ∀ i : ℕ, i < tableSize mn mx st →
      ((t0.create mn mx st f).2).eval (sampleX mn st i) =
        .ok (f (sampleX mn st i)) := by
    intro i hi
    rw [tableSize_eq hmn' hst] at hi
    set M : ℕ := (⌊(mx - mn) / st⌋).toNat with hM
    have hiM : i ≤ M := by omega
    have hx1 : mn ≤ sampleX mn st i := mn_le_sampleX hst i
    have hx2 : sampleX mn st i ≤ mx :=
      le_trans (sampleX_mono hst hiM) (sampleX_last_le hmn' hst)
    rcases eq_or_lt_of_le hiM with heq | hltM
    · subst heq
      exact eval_create_last_M t0 f hmn' hst hx1 hx2 le_rfl
    · have hlt : sampleX mn st i < sampleX mn st M := sampleX_strict_mono hst hltM
      have h := eval_create_interp_M t0 f hmn' hst hx1 hx2 hlt
      rw [bucket_sampleX hst i] at h
      rw [h]
      simp
  refine ⟨?_, key⟩
  have h0 : sampleX mn st 0 = mn := by
    rw [sampleX]
    push_cast
    ring
  have hpos : 0 < tableSize mn mx st := by
    rw [tableSize_eq hmn' hst]
    omega
  have := key 0 hpos
  rw [h0] at this
  exact this

/-- Witness for C5: the table for `f(y) = y²` over `[0,1]` with step `1/2`
is exact at the knot `x_1 = 1/2`. -/
theorem claim_C5_witness :
    ((LookUpTable.init.create 0 1 (1/2) (fun y => y * y)).2).eval (1/2) =
      .ok (1/4) := by
  have hfl : ⌊((1:ℚ) - 0) / (1/2)⌋ = 2 := by
    rw [Int.floor_eq_iff]
    norm_num
  have hsz : tableSize 0 1 (1/2) = 3 := by
    rw [tableSize, hfl]
    rfl
  have h := (claim_C5 LookUpTable.init 0 1 (1/2) (fun y => y * y)
      (by norm_num) (by norm_num)).2 1 (by rw [hsz]; norm_num)
  have hx : sampleX 0 (1/2) 1 = 1/2 := by
    norm_num [sampleX]
  rw [hx] at h
  rw [h]
  norm_num

/-- Claim C3: for a built table and a query outside `[min, max]`: policy
`Zero` yields `0`; `BoundValue` (the spec's ClampToBound) yields the first
sample's value `y_0` below `min` and the last sample's value `y_{N-1}` above
`max`; `Fail` yields the out-of-range error; and tables constructed without
specifying a policy (default constructor, or the creating constructor's
defaulted argument as used via `ofParams`) use `Zero`. -/
theorem claim_C3 (mn mx st : ℚ) (f : ℚ → ℚ) (x : ℚ)
    (hmn : mn ≤ mx) (hst : 0 < st) :
    ((x < mn ∨ mx < x) →
       ((LookUpTable.init.create mn mx st f).2).eval x = .ok 0) ∧
    (x < mn →
       (({ LookUpTable.init with outbounds := .BoundValue }).create mn mx st f).2.eval x
         = .ok (f (sampleX mn st 0))) ∧
    (mx < x →
       (({ LookUpTable.init with outbounds := .BoundValue }).create mn mx st f).2.eval x
         = .ok (f (sampleX mn st (tableSize mn mx st - 1)))) ∧
    ((x < mn ∨ mx < x) →
       (({ LookUpTable.init with outbounds := .Fail }).create mn mx st f).2.eval x
         = .errOutOfBound) ∧
    LookUpTable.init.outbounds = .Zero ∧
    (LookUpTable.ofParams mn mx st f).outbounds = .Zero := by
  refine ⟨?_, ?_, ?_, ?_, rfl, ?_⟩
  · intro hout
    rw [eval_create_out LookUpTable.init f hmn hst hout]
    rfl
  · intro hxmn
    rw [eval_create_out { LookUpTable.init with outbounds := .BoundValue } f
        hmn hst (Or.inl hxmn)]
    simp [if_pos hxmn]
  · intro hxmx
    have hnot : ¬ x < mn := by linarith
    rw [eval_create_out { LookUpTable.init with outbounds := .BoundValue } f
        hmn hst (Or.inr hxmx)]
    simp [if_neg hnot]
  · intro hout
    rw [eval_create_out { LookUpTable.init with outbounds := .Fail } f
        hmn hst hout]
  · rw [LookUpTable.ofParams, create_outbounds]
    rfl

/-- Witness for C3: for the table of `f(y) = y²` over `[0,1]` with step
`1/2`, the query `x = 2 > max` returns `0` under `Zero`, the last sample's
value `1` under `BoundValue`, and the out-of-range error under `Fail`;
`x = -1 < min` under `BoundValue` returns `f(0) = 0`. -/
theorem claim_C3_witness :
    ((LookUpTable.init.create 0 1 (1/2) (fun y => y * y)).2).eval 2 = .ok 0 ∧
    (({ LookUpTable.init with outbounds := .BoundValue }).create 0 1 (1/2)
        (fun y => y * y)).2.eval 2 = .ok 1 ∧
    (({ LookUpTable.init with outbounds := .BoundValue }).create 0 1 (1/2)
        (fun y => y * y)).2.eval (-1) = .ok 0 ∧
    (({ LookUpTable.init with outbounds := .Fail }).create 0 1 (1/2)
        (fun y => y * y)).2.eval 2 = .errOutOfBound := by
  have hfl : ⌊((1:ℚ) - 0) / (1/2)⌋ = 2 := by
    rw [Int.floor_eq_iff]
    norm_num
  have hsz : tableSize 0 1 (1/2) = 3 := by
    rw [tableSize, hfl]
    rfl
  have h := claim_C3 0 1 (1/2) (fun y => y * y) 2 (by norm_num) (by norm_num)
  have h' := claim_C3 0 1 (1/2) (fun y => y * y) (-1) (by norm_num) (by norm_num)
  refine ⟨h.1 (Or.inr (by norm_num)), ?_, ?_, h.2.2.2.1 (Or.inr (by norm_num))⟩
  · have := h.2.2.1 (by norm_num)
    rw [hsz] at this
    rw [this]
    norm_num [sampleX]
  · have := h'.2.1 (by norm_num)
    rw [this]
    norm_num [sampleX]

/-- Counterexample to C2 as stated: the claim quantifies over every `step`
and asserts that whenever `create` does not fail (`min ≤ max`, `step ≠ 0`)
the table holds exactly `N = ⌊(max-min)/step⌋ + 1` pairs.  At
`(min, max, step) = (0, 1, -2/3)` the guard passes (so `create` returns
`true`), yet `N = ⌊-3/2⌋ + 1 = -1`: no table can hold `-1` pairs (the C++
`size_t` conversion of the negative size is undefined behavior; the
embedding truncates it to an empty table). -/
theorem claim_C2_counterexample :
    (0 : ℚ) ≤ 1 ∧ (-2/3 : ℚ) ≠ 0 ∧
    (LookUpTable.init.create 0 1 (-2/3) (fun y => y)).1 = true ∧
    ¬ ((((LookUpTable.init.create 0 1 (-2/3) (fun y => y)).2).table.length : ℤ)
         = ⌊((1 : ℚ) - 0) / (-2/3)⌋ + 1) := by
  have hc := create_of_valid LookUpTable.init (fun y : ℚ => y)
      (show (0:ℚ) ≤ 1 by norm_num) (show (-2/3 : ℚ) ≠ 0 by norm_num)
  have hfl : ⌊((1 : ℚ) - 0) / (-2/3)⌋ = -2 := by
    rw [Int.floor_eq_iff]
    norm_num
  refine ⟨by norm_num, by norm_num, ?_, ?_⟩
  · rw [hc]
  · rw [hc]
    simp only [length_sampleList, tableSize, hfl]
    norm_num

/-- Claim C2 as amended: `create(min, max, step, f)` returns `false` and
leaves the table (and all other state) unchanged exactly when `min > max`
or `step == 0`; and in every other case with `step > 0` it returns `true`
and the table holds exactly `N = ⌊(max-min)/step⌋ + 1` pairs
`(x_i, f(x_i))` with `x_i = min + i·step`, the stored abscissas strictly
increasing (so `f` is evaluated exactly once per sample, in increasing
order of `x_i`), `x_0 = min` exactly and `x_{N-1} ≤ max`.  (The only change
from the claim as stated is restricting the success-case description to
`step > 0`: for negative `step` the claimed pair count is negative and the
code's size conversion is undefined.) -/
theorem claim_C2_amended (t0 : LookUpTable) (mn mx st : ℚ) (f : ℚ → ℚ) :
    (t0.create mn mx st f = (false, t0) ↔ (mx < mn ∨ st = 0)) ∧
    (0 < st → mn ≤ mx →
       ∃ T : LookUpTable,
         t0.create mn mx st f = (true, T) ∧
         (T.table.length : ℤ) = ⌊(mx - mn) / st⌋ + 1 ∧
         (∀ i : ℕ, i < T.table.length →
            T.table.getD i (0, 0) = (sampleX mn st i, f (sampleX mn st i))) ∧
         T.table.Pairwise (fun p q => p.1 < q.1) ∧
         sampleX mn st 0 = mn ∧
         sampleX mn st (T.table.length - 1) ≤ mx) := by
  constructor
  · constructor
    · intro h
      by_contra hcon
      push_neg at hcon
      have := create_of_valid t0 f hcon.1 hcon.2
      rw [this] at h
      exact absurd (congrArg Prod.fst h) (by simp)
    · intro h
      exact create_of_invalid t0 f h
  · intro hst hmn
    refine ⟨_, create_of_valid t0 f hmn hst.ne', ?_, ?_, ?_, ?_, ?_⟩
    · simp only [length_sampleList, tableSize_eq hmn hst]
      have := floor_ratio_nonneg hmn hst
      push_cast
      omega
    · intro i hi
      rw [length_sampleList] at hi
      exact getD_sampleList mn st f hi (0, 0)
    · rw [sampleList]
      rw [List.pairwise_map]
      exact (List.pairwise_lt_range _).imp (fun h => sampleX_strict_mono hst h)
    · rw [sampleX]
      push_cast
      ring
    · rw [length_sampleList, tableSize_eq hmn hst, Nat.add_sub_cancel]
      exact sampleX_last_le hmn hst

/-- Witness for the amended C2: at `(0, 1, 1/2)` with `f(y) = y²`, `create`
succeeds with the three expected pairs. -/
theorem claim_C2_witness :
    ∃ T : LookUpTable,
      LookUpTable.init.create 0 1 (1/2) (fun y => y * y) = (true, T) ∧
      (T.table.length : ℤ) = ⌊((1 : ℚ) - 0) / (1/2)⌋ + 1 ∧
      (∀ i : ℕ, i < T.table.length →
         T.table.getD i (0, 0) = (sampleX 0 (1/2) i, (fun y : ℚ => y * y) (sampleX 0 (1/2) i))) ∧
      T.table.Pairwise (fun p q => p.1 < q.1) ∧
      sampleX 0 (1/2) 0 = 0 ∧
      sampleX 0 (1/2) (T.table.length - 1) ≤ 1 := by
  have h := (claim_C2_amended LookUpTable.init 0 1 (1/2) (fun y => y * y)).2
      (by norm_num) (by norm_num)
  obtain ⟨T, h1, h2, h3, h4, h5, h6⟩ := h
  exact ⟨T, h1, by rw [h2], h3, h4, h5, h6⟩

/-- Claim C6: for valid `(min, max, step, f)` with `min < max`, `step > 0`,
if `f` is monotone non-decreasing on `[min, max]` then so is the query
function: for all `min ≤ x1 ≤ x2 ≤ max` both queries succeed and
`evaluate(x1) ≤ evaluate(x2)`. -/
theorem claim_C6 (t0 : LookUpTable) (mn mx st : ℚ) (f : ℚ → ℚ)
    (hmn : mn < mx) (hst : 0 < st)
    (hf : ∀ a b, mn ≤ a → a ≤ b → b ≤ mx → f a ≤ f b)
    (x1 x2 : ℚ) (h1 : mn ≤ x1) (h12 : x1 ≤ x2) (h2 : x2 ≤ mx) :
    ∃ v1 v2 : ℚ,
      ((t0.create mn mx st f).2).eval x1 = .ok v1 ∧
      ((t0.create mn mx st f).2).eval x2 = .ok v2 ∧ v1 ≤ v2 := by
  have hmn' : mn ≤ mx := hmn.le
  have hx1mx : x1 ≤ mx := le_trans h12 h2
  have hmnx2 : mn ≤ x2 := le_trans h1 h12
  have hy : ∀ i k : ℕ, i ≤ k → k ≤ (⌊(mx - mn) / st⌋).toNat →
      f (sampleX mn st i) ≤ f (sampleX mn st k) :=
    fun i k hik hk => sample_val_mono hmn' hst hf hik hk
  by_cases hA : sampleX mn st (⌊(mx - mn) / st⌋).toNat ≤ x1
  · have hA2 : sampleX mn st (⌊(mx - mn) / st⌋).toNat ≤ x2 := le_trans hA h12
    exact ⟨_, _, eval_create_last_M t0 f hmn' hst h1 hx1mx hA,
           eval_create_last_M t0 f hmn' hst hmnx2 h2 hA2, le_rfl⟩
  · push_neg at hA
    have hb1M : (⌊(x1 - mn) / st⌋).toNat < (⌊(mx - mn) / st⌋).toNat := by
      by_contra hcon
      push_neg at hcon
      exact absurd ((le_bucket_iff hst h1 _).1 hcon) (not_le.2 hA)
    have he1 := eval_create_interp_M t0 f hmn' hst h1 hx1mx hA
    have hy1 : f (sampleX mn st (⌊(x1 - mn) / st⌋).toNat) ≤
        f (sampleX mn st ((⌊(x1 - mn) / st⌋).toNat + 1)) :=
      hy _ _ (Nat.le_succ _) hb1M
    have hsucc1 : sampleX mn st ((⌊(x1 - mn) / st⌋).toNat + 1) =
        sampleX mn st (⌊(x1 - mn) / st⌋).toNat + st := by
      have := sampleX_gap mn st (⌊(x1 - mn) / st⌋).toNat
      linarith
    have hbnd1 := interp_between hst hy1 (sampleX_bucket_le hst h1)
        (by rw [← hsucc1]; exact lt_sampleX_bucket_succ hst h1)
    by_cases hB : sampleX mn st (⌊(mx - mn) / st⌋).toNat ≤ x2
    · refine ⟨_, _, he1, eval_create_last_M t0 f hmn' hst hmnx2 h2 hB, ?_⟩
      exact le_trans hbnd1.2 (hy _ _ hb1M le_rfl)
    · push_neg at hB
      have hb2M : (⌊(x2 - mn) / st⌋).toNat < (⌊(mx - mn) / st⌋).toNat := by
        by_contra hcon
        push_neg at hcon
        exact absurd ((le_bucket_iff hst hmnx2 _).1 hcon) (not_le.2 hB)
      have he2 := eval_create_interp_M t0 f hmn' hst hmnx2 h2 hB
      have hy2 : f (sampleX mn st (⌊(x2 - mn) / st⌋).toNat) ≤
          f (sampleX mn st ((⌊(x2 - mn) / st⌋).toNat + 1)) :=
        hy _ _ (Nat.le_succ _) hb2M
      have hsucc2 : sampleX mn st ((⌊(x2 - mn) / st⌋).toNat + 1) =
          sampleX mn st (⌊(x2 - mn) / st⌋).toNat + st := by
        have := sampleX_gap mn st (⌊(x2 - mn) / st⌋).toNat
        linarith
      have hbnd2 := interp_between hst hy2 (sampleX_bucket_le hst hmnx2)
          (by rw [← hsucc2]; exact lt_sampleX_bucket_succ hst hmnx2)
      have hb12 : (⌊(x1 - mn) / st⌋).toNat ≤ (⌊(x2 - mn) / st⌋).toNat :=
        bucket_mono hst h12
      rcases eq_or_lt_of_le hb12 with heq | hblt
      · rw [← heq] at he2 hbnd2
        exact ⟨_, _, he1, he2, interp_mono_same hst hy1 h12⟩
      · refine ⟨_, _, he1, he2, ?_⟩
        exact le_trans hbnd1.2 (le_trans (hy _ _ hblt hb2M.le) hbnd2.1)

/-- Witness for C6: for the monotone `f(y) = y²` on `[0,1]` with step
`1/2`, queries at `x1 = 3/10` and `x2 = 3/4` succeed with ordered values. -/
theorem claim_C6_witness :
    ∃ v1 v2 : ℚ,
      ((LookUpTable.init.create 0 1 (1/2) (fun y => y * y)).2).eval (3/10) = .ok v1 ∧
      ((LookUpTable.init.create 0 1 (1/2) (fun y => y * y)).2).eval (3/4) = .ok v2 ∧
      v1 ≤ v2 :=
  claim_C6 LookUpTable.init 0 1 (1/2) (fun y => y * y) (by norm_num) (by norm_num)
    (fun a b ha hab hb => by show a * a ≤ b * b; nlinarith)
    (3/10) (3/4) (by norm_num) (by norm_num) (by norm_num)

/-- Claim C7: in every call to `setFrictionForces` (with the static
threshold `Ts` nonnegative, as the claim's mutual exclusivity presupposes),
writing `w_ast = w + Z·Kf·e` and `T_ast = w_ast/Z`, the friction torque is
selected by a three-way comparison with `Ts`: if `T_ast > Ts` then
`Tf = table(w_ast) + (Tc + Tv·w_ast)/den`; if `T_ast < -Ts` then
`Tf = -table(-w_ast) + (-Tc + Tv·w_ast)/den` with the table queried at the
mirrored argument `-w_ast`; otherwise (`-Ts ≤ T_ast ≤ Ts`) `Tf = T_ast`
with no table query. -/
theorem claim_C7 (s : JointValSet) (hTs : 0 ≤ s.Ts) (wv wa Ta : ℚ)
    (hw : wv = if s.firstTime ≠ 0 then 0 else (s.value - s.p_prev) / s.dt)
    (hwa : wa = wv + s.Z * s.Kf * s.e)
    (hTa : Ta = wa / s.Z) :
    (s.Ts < Ta → ∀ v : ℚ, queryTable s.dryFricTable wa = .ok v →
       setFrictionForces s =
         .ok (s.torqueForce - (v + (s.Tc + s.Tv * wa) / s.den),
              { s with
                firstTime := if s.firstTime ≠ 0 then 0 else s.firstTime,
                w_ast := wa, T_ast := Ta,
                e := s.Z * (s.Bf * s.e + (v + (s.Tc + s.Tv * wa) / s.den) * s.dt),
                p_prev := s.value,
                torqueForce := s.torqueForce - (v + (s.Tc + s.Tv * wa) / s.den) })) ∧
    (Ta < -s.Ts → ∀ v : ℚ, queryTable s.dryFricTable (-wa) = .ok v →
       setFrictionForces s =
         .ok (s.torqueForce - (-v + (-s.Tc + s.Tv * wa) / s.den),
              { s with
                firstTime := if s.firstTime ≠ 0 then 0 else s.firstTime,
                w_ast := wa, T_ast := Ta,
                e := s.Z * (s.Bf * s.e + (-v + (-s.Tc + s.Tv * wa) / s.den) * s.dt),
                p_prev := s.value,
                torqueForce := s.torqueForce - (-v + (-s.Tc + s.Tv * wa) / s.den) })) ∧
    (-s.Ts ≤ Ta → Ta ≤ s.Ts →
       setFrictionForces s =
         .ok (s.torqueForce - Ta,
              { s with
                firstTime := if s.firstTime ≠ 0 then 0 else s.firstTime,
                w_ast := wa, T_ast := Ta,
                e := s.Z * (s.Bf * s.e + Ta * s.dt),
                p_prev := s.value,
                torqueForce := s.torqueForce - Ta })) := by
  subst hTa
  subst hwa
  subst hw
  refine ⟨?_, ?_, ?_⟩
  · intro hgt v hq
    simp only [setFrictionForces, gt_iff_lt]
    rw [if_pos hgt, hq]
    rfl
  · intro hlt v hq
    have hnot1 : ¬ (s.Ts <
        ((if s.firstTime ≠ 0 then 0 else (s.value - s.p_prev) / s.dt) +
           s.Z * s.Kf * s.e) / s.Z) := by
      intro hcon
      linarith
    simp only [setFrictionForces, gt_iff_lt]
    rw [if_neg hnot1, if_pos hlt, hq]
    rfl
  · intro hlo hhi
    simp only [setFrictionForces, gt_iff_lt]
    rw [if_neg (not_lt.2 hhi), if_neg (not_lt.2 hlo)]
    rfl

/-- Witness for C7: on the concrete positive-slip state `slipSet`
(`w_ast = 4`, `T_ast = 4 > Ts = 2`, table value `4`), the step returns
`torqueForce - Tf = 0 - (4 + (1 + 1·4)/1) = -9`. -/
theorem claim_C7_witness :
    ∃ s2 : JointValSet, setFrictionForces slipSet = .ok (-9, s2) := by
  have hfl : ⌊((10 : ℚ) - 0) / 5⌋ = 2 := by
    rw [Int.floor_eq_iff]
    norm_num
  have hb : ⌊((4 : ℚ) - 0) / 5⌋ = 0 := by
    rw [Int.floor_eq_iff]
    norm_num
  have he : (utl.LookUpTable.ofParams 0 10 5 (fun y => y)).eval 4 = .ok 4 := by
    have h := eval_create_interp_M utl.LookUpTable.init (fun y : ℚ => y)
        (show (0:ℚ) ≤ 10 by norm_num) (show (0:ℚ) < 5 by norm_num)
        (show (0:ℚ) ≤ 4 by norm_num) (show (4:ℚ) ≤ 10 by norm_num)
        (by rw [hfl]; norm_num [sampleX, show Int.toNat 2 = 2 from rfl])
    rw [hb] at h
    rw [utl.LookUpTable.ofParams, h]
    norm_num [sampleX]
  have hq : queryTable slipSet.dryFricTable 4 = .ok 4 := by
    show queryTable (some (utl.LookUpTable.ofParams 0 10 5 (fun y => y))) 4 = .ok 4
    simp only [queryTable, he]
  have h := (claim_C7 slipSet (by norm_num [slipSet]) 0 4 4
      (by norm_num [slipSet]) (by norm_num [slipSet]) (by norm_num [slipSet])).1
      (by norm_num [slipSet]) 4 hq
  have harith : slipSet.torqueForce - (4 + (slipSet.Tc + slipSet.Tv * 4) / slipSet.den)
      = -9 := by
    norm_num [slipSet]
  rw [harith] at h
  exact ⟨_, h⟩

/-- Claim C8: every call to `setFrictionForces` uses velocity `w = 0` and
clears the `firstTime` flag when it is set (and `w = (value - p_prev)/dt`
on later calls); after choosing `Tf` it sets `e := Z·(Bf·e_old + Tf·dt)`,
sets `p_prev` to the current `value`, decrements `torqueForce` by `Tf` and
returns the updated `torqueForce`; and no other function of the repository
(`createTable`) mutates `e` or `p_prev`. -/
theorem claim_C8 (s : JointValSet) (tq : ℚ) (s2 : JointValSet)
    (h : setFrictionForces s = .ok (tq, s2)) :
    (s.firstTime ≠ 0 → s2.firstTime = 0 ∧ s2.w_ast = 0 + s.Z * s.Kf * s.e) ∧
    (s.firstTime = 0 → s2.firstTime = s.firstTime ∧
       s2.w_ast = (s.value - s.p_prev) / s.dt + s.Z * s.Kf * s.e) ∧
    (∃ Tf : ℚ,
       tq = s.torqueForce - Tf ∧
       s2.torqueForce = s.torqueForce - Tf ∧
       s2.e = s.Z * (s.Bf * s.e + Tf * s.dt) ∧
       s2.p_prev = s.value) ∧
    (∀ (W0 rexp : ℚ → ℚ) (u : JointValSet),
       (createTable W0 rexp u).e = u.e ∧ (createTable W0 rexp u).p_prev = u.p_prev) := by
  rw [setFrictionForces] at h
  obtain ⟨Tf, hTfE, hpair⟩ := exceptMap_ok_inv h
  have htq : s.torqueForce - Tf = tq := congrArg Prod.fst hpair
  have hs2 : ({ s with
      firstTime := if s.firstTime ≠ 0 then 0 else s.firstTime,
      w_ast := (if s.firstTime ≠ 0 then 0 else (s.value - s.p_prev) / s.dt) +
                 s.Z * s.Kf * s.e,
      T_ast := ((if s.firstTime ≠ 0 then 0 else (s.value - s.p_prev) / s.dt) +
                 s.Z * s.Kf * s.e) / s.Z,
      e := s.Z * (s.Bf * s.e + Tf * s.dt),
      p_prev := s.value,
      torqueForce := s.torqueForce - Tf } : JointValSet) = s2 :=
    congrArg Prod.snd hpair
  refine ⟨?_, ?_, ⟨Tf, htq.symm, ?_, ?_, ?_⟩, fun W0 rexp u => createTable_preserves W0 rexp u⟩
  · intro hft
    rw [← hs2]
    simp only [if_pos hft]
    exact ⟨by trivial, by trivial⟩
  · intro hft
    have hnot : ¬ s.firstTime ≠ 0 := by simp [hft]
    rw [← hs2]
    simp only [if_neg hnot]
    exact ⟨by trivial, by trivial⟩
  · rw [← hs2]
  · rw [← hs2]
  · rw [← hs2]

/-- Witness for C8: on the concrete first-call stick state `stickSet`
(`firstTime = 1`), the step succeeds, clears the flag, stores
`p_prev = value`, and updates `e` and `torqueForce` through some `Tf`. -/
theorem claim_C8_witness :
    ∃ (s2 : JointValSet) (Tf : ℚ),
      setFrictionForces stickSet = .ok (stickSet.torqueForce - Tf, s2) ∧
      s2.e = stickSet.Z * (stickSet.Bf * stickSet.e + Tf * stickSet.dt) ∧
      s2.p_prev = stickSet.value ∧
      s2.firstTime = 0 := by
  have hrun : setFrictionForces stickSet =
      .ok (0, { stickSet with
        firstTime := 0, w_ast := 0, T_ast := 0, e := 0, p_prev := 0,
        torqueForce := 0 }) := by
    simp only [setFrictionForces, stickSet]
    norm_num [Except.map]
  have h := claim_C8 stickSet 0 _ hrun
  obtain ⟨Tf, h1, h2, h3, h4⟩ := h.2.2.1
  refine ⟨_, Tf, ?_, h3, h4, (h.1 (by norm_num [stickSet])).1⟩
  rw [← h1]
  exact hrun

/-- Claim C9: `createTable` builds the joint's look-up table by sampling
`dry(w) = -(wbrk/Z)·W₀(-(Z/wbrk)·(Tsc/den)·exp((Z·Tc - w)/(wbrk·den)))`
(`W₀` opaque) over `[min, max]` at resolution `LUTstep`, where the header's
default member initializers give `min = Z·Ts`,
`max = Z·Tc - wbrk·den·ln(-wbrk/Z · den/Tsc · lambArg_th)`,
`lambArg_th = -0.001`, and `LUTstep = 0.001`. -/
theorem claim_C9 (W0 rexp : ℚ → ℚ) (s : JointValSet) :
    (createTable W0 rexp s).dryFricTable =
      some (utl.LookUpTable.ofParams s.min s.max s.LUTstep
        (fun w => -(s.wbrk / s.Z) *
           W0 (-s.Z / s.wbrk * s.Tsc / s.den *
                rexp ((s.Z * s.Tc - w) / (s.wbrk * s.den))))) ∧
    (0 < s.LUTstep → s.min ≤ s.max →
       ∃ T : utl.LookUpTable,
         (createTable W0 rexp s).dryFricTable = some T ∧
         T.table = sampleList s.min s.LUTstep
             (fun w => -(s.wbrk / s.Z) *
                W0 (-s.Z / s.wbrk * s.Tsc / s.den *
                     rexp ((s.Z * s.Tc - w) / (s.wbrk * s.den))))
             (tableSize s.min s.max s.LUTstep) ∧
         T.min = s.min ∧ T.max = s.max ∧ T.step = s.LUTstep) ∧
    (∀ (rlog : ℚ → ℚ) (v1 v2 v3 v4 v5 v6 v7 v8 : ℚ) (D : JointValSet),
       D = JointValSet.mkDefault rlog v1 v2 v3 v4 v5 v6 v7 v8 →
         D.min = D.Z * D.Ts ∧
         D.max = D.Z * D.Tc -
             D.wbrk * D.den * rlog (-D.wbrk / D.Z * D.den / D.Tsc * D.lambArg_th) ∧
         D.lambArg_th = -0.001 ∧
         D.LUTstep = 0.001) := by
  refine ⟨rfl, ?_, ?_⟩
  · intro hstep hminmax
    refine ⟨_, rfl, ?_, ?_, ?_, ?_⟩
    · show ((utl.LookUpTable.init.create s.min s.max s.LUTstep _).2).table = _
      rw [create_of_valid utl.LookUpTable.init _ hminmax hstep.ne']
    · show ((utl.LookUpTable.init.create s.min s.max s.LUTstep _).2).min = _
      rw [create_of_valid utl.LookUpTable.init _ hminmax hstep.ne']
    · show ((utl.LookUpTable.init.create s.min s.max s.LUTstep _).2).max = _
      rw [create_of_valid utl.LookUpTable.init _ hminmax hstep.ne']
    · show ((utl.LookUpTable.init.create s.min s.max s.LUTstep _).2).step = _
      rw [create_of_valid utl.LookUpTable.init _ hminmax hstep.ne']
  · intro rlog v1 v2 v3 v4 v5 v6 v7 v8 D hD
    subst hD
    exact ⟨rfl, rfl, rfl, rfl⟩

/-- Witness for C9: with opaque stand-ins for `W₀`, `exp`, `log` and the
concrete state `slipSet` (`min = 0 ≤ max = 10`, `LUTstep = 5 > 0`), the
table is built over the claimed domain, and the default-initialized struct
satisfies the claimed field formulas. -/
theorem claim_C9_witness :
    (∃ T : utl.LookUpTable,
       (createTable (fun y => y + 1) (fun y => y * 2) slipSet).dryFricTable = some T ∧
       T.table = sampleList slipSet.min slipSet.LUTstep
           (fun w => -(slipSet.wbrk / slipSet.Z) *
              ((fun y => y + 1)
                (-slipSet.Z / slipSet.wbrk * slipSet.Tsc / slipSet.den *
                  ((fun y => y * 2)
                    ((slipSet.Z * slipSet.Tc - w) / (slipSet.wbrk * slipSet.den))))))
           (tableSize slipSet.min slipSet.max slipSet.LUTstep) ∧
       T.min = slipSet.min ∧ T.max = slipSet.max ∧ T.step = slipSet.LUTstep) ∧
    (JointValSet.mkDefault (fun y => y) 0 0 0 0 0 0 0 0).min =
        (JointValSet.mkDefault (fun y => y) 0 0 0 0 0 0 0 0).Z *
        (JointValSet.mkDefault (fun y => y) 0 0 0 0 0 0 0 0).Ts ∧
    (JointValSet.mkDefault (fun y => y) 0 0 0 0 0 0 0 0).LUTstep = 0.001 := by
  have h := claim_C9 (fun y => y + 1) (fun y => y * 2) slipSet
  have hd := h.2.2 (fun y => y) 0 0 0 0 0 0 0 0 _ rfl
  exact ⟨h.2.1 (by norm_num [slipSet]) (by norm_num [slipSet]), hd.1, hd.2.2.2⟩

/-- Claim C10: whenever the predictor torque satisfies `-Ts ≤ T_ast ≤ Ts`
(the stick regime), `setFrictionForces` completes successfully without
querying `dryFricTable` — the result is the same for any table state,
including a never-built one — so the call cannot raise the
uninitialized-table error. -/
theorem claim_C10 (s : JointValSet) (Ta : ℚ)
    (hTa : Ta = ((if s.firstTime ≠ 0 then 0 else (s.value - s.p_prev) / s.dt) +
                   s.Z * s.Kf * s.e) / s.Z)
    (hlo : -s.Ts ≤ Ta) (hhi : Ta ≤ s.Ts) :
    setFrictionForces s =
      .ok (s.torqueForce - Ta,
           { s with
             firstTime := if s.firstTime ≠ 0 then 0 else s.firstTime,
             w_ast := (if s.firstTime ≠ 0 then 0 else (s.value - s.p_prev) / s.dt) +
                        s.Z * s.Kf * s.e,
             T_ast := Ta,
             e := s.Z * (s.Bf * s.e + Ta * s.dt),
             p_prev := s.value,
             torqueForce := s.torqueForce - Ta }) := by
  subst hTa
  simp only [setFrictionForces, gt_iff_lt]
  rw [if_neg (not_lt.2 hhi), if_neg (not_lt.2 hlo)]
  rfl

/-- Witness for C10: the stick state `stickSet` has `dryFricTable = none`
(never built) and `T_ast = 0` within `[-Ts, Ts]`, yet the step succeeds. -/
theorem claim_C10_witness :
    stickSet.dryFricTable = none ∧
    ∃ s2 : JointValSet, setFrictionForces stickSet = .ok (stickSet.torqueForce - 0, s2) := by
  refine ⟨rfl, _, claim_C10 stickSet 0 ?_ ?_ ?_⟩
  · norm_num [stickSet]
  · norm_num [stickSet]
  · norm_num [stickSet]
